import Mathlib

/-!
# `limactl edit`: the edit / validate / commit / restart session

A shallow embedding of `editAction` and `askWhetherToStart` from
`cmd/limactl/edit.go`.

The function is a straight-line sequence of calls to external collaborators
(`store.Inspect`, `os.ReadFile`, `yqutil.EvaluateExpression`,
`editutil.OpenEditor`, `limayaml.Load`, `limayaml.Validate`, `os.WriteFile`,
`survey.AskOne`, `networks.Reconcile`, `start.Start`).  The embedding passes
the file table explicitly, takes the behaviour of every collaborator as a field
of an environment record `Env`, and records every call, in program order, in a
trace.  Constants that live in other packages (`DefaultInstanceName`,
`store.StatusRunning`, `filenames.LimaYAML`) and the library functions
`filepath.Join` and `strconv.Quote` are fields of `Env` as well.

The file table changes only through `os.WriteFile`: the other collaborators are
taken not to write the document or the recovery file.  A failed `os.WriteFile`
may leave anything at its path.  Two paths name the same file exactly when they
are the same string.
-/

namespace Lima

/-! ## Data model -/

/-- A Go `byte`. -/
abbrev Byte := Fin 256

/-- A Go `[]byte`; the nil slice and the empty slice are both `[]`. -/
abbrev Bytes := List Byte

/-- The files of the host, by path: `none` when there is no file at the path. -/
abbrev Files := String → Option Bytes

/-- Replace what is stored at one path of the file table. -/
def Files.set (files : Files) (name : String) (v : Option Bytes) : Files :=
  fun q => if q = name then v else files q

/-- An error value produced by a collaborator.  `msg` is what its `Error()`
method returns and `notExist` is the answer of `errors.Is(err, os.ErrNotExist)`
on it. -/
structure ExtError where
  msg : String
  notExist : Bool
deriving DecidableEq, Repr

/-- An operand of `fmt.Errorf` / `fmt.Sprintf` as used in `edit.go`: a string or
an error value. -/
inductive FmtArg where
  | str (s : String)
  | err (e : ExtError)
deriving DecidableEq, Repr

/-- The error values `editAction` can return: a collaborator's error returned
as it is, an `errors.New(text)`, or a `fmt.Errorf(format, args...)`. -/
inductive GoError where
  | ext (e : ExtError)
  | errorsNew (text : String)
  | Errorf (format : String) (args : List FmtArg)
deriving DecidableEq, Repr

/-- The fields of `store.Instance` that `editAction` reads. -/
structure Instance where
  Name : String
  Status : String
  Dir : String
deriving DecidableEq, Repr

/-- The `survey.Confirm` prompt built by `askWhetherToStart`. -/
structure Confirm where
  Message : String
  Default : Bool
deriving DecidableEq, Repr

/-- One call made by a session, with its arguments. -/
inductive Event (Cfg : Type) where
  | Inspect (instName : String)
  | ReadFile (name : String)
  | GetBool (flag : String)
  | GetString (flag : String)
  | Warn (msg : String)
  | Info (msg : String)
  | EvaluateExpression (yq : String) (yContent : Bytes)
  | OpenEditor (instName : String) (yContent : Bytes) (hdr : String)
  | Load (yBytes : Bytes) (filePath : String)
  | Validate (y : Cfg) (strict : Bool)
  | WriteFile (name : String) (data : Bytes) (perm : Nat)
  | AskOne (prompt : Confirm)
  | Reconcile (instName : String)
  | Start (inst : Instance)
deriving DecidableEq, Repr

/-- The collaborators and imported constants of `edit.go`.  `Cfg` is the type
`limayaml.LimaYAML` of a parsed configuration. -/
structure Env (Cfg : Type) where
  /-- The constant `DefaultInstanceName`. -/
  DefaultInstanceName : String
  /-- The constant `store.StatusRunning`. -/
  StatusRunning : String
  /-- The constant `filenames.LimaYAML`. -/
  LimaYAML : String
  /-- The function `filepath.Join` on two elements. -/
  Join : String → String → String
  /-- The function `strconv.Quote`, which formats the verb `%q`. -/
  Quote : String → String
  /-- The function `store.Inspect`. -/
  Inspect : String → Except ExtError Instance
  /-- A failure of `os.ReadFile` on a path for a reason other than a missing
  file. -/
  readFault : String → Option ExtError
  /-- A failure of `os.WriteFile` on a path and data: the error, and what is at
  the path afterwards. -/
  writeFault : String → Bytes → Option (ExtError × Option Bytes)
  /-- The call `cmd.Flags().GetBool`. -/
  GetBool : String → Except ExtError Bool
  /-- The call `cmd.Flags().GetString`. -/
  GetString : String → Except ExtError String
  /-- The function `yqutil.EvaluateExpression`. -/
  EvaluateExpression : String → Bytes → Except ExtError Bytes
  /-- The function `editutil.GenerateEditorWarningHeader`. -/
  GenerateEditorWarningHeader : String
  /-- The function `editutil.OpenEditor`. -/
  OpenEditor : String → Bytes → String → Except ExtError Bytes
  /-- The function `limayaml.Load`. -/
  Load : Bytes → String → Except ExtError Cfg
  /-- The function `limayaml.Validate`: `none` is a nil error. -/
  Validate : Cfg → Bool → Option ExtError
  /-- The call `survey.AskOne` on a `Confirm` prompt: the answer, or an
  error. -/
  AskOne : Confirm → Except ExtError Bool
  /-- The function `networks.Reconcile`: `none` is a nil error. -/
  Reconcile : String → Option ExtError
  /-- The function `start.Start`: `none` is a nil error. -/
  Start : Instance → Option ExtError

/-- What a session leaves behind: the returned error (`none` is nil), the file
table, and the calls it made, oldest first. -/
structure Outcome (Cfg : Type) where
  err : Option GoError
  files : Files
  trace : List (Event Cfg)

/-! ## Library functions used by `edit.go` -/

/-- The call `os.ReadFile(name)` on the file table. -/
def ReadFile {Cfg : Type} (E : Env Cfg) (files : Files) (name : String) :
    Except ExtError Bytes :=
  match E.readFault name with
  | some e => .error e
  | none =>
    match files name with
    | some b => .ok b
    | none => .error ⟨"open " ++ name ++ ": no such file or directory", true⟩

/-- The call `os.WriteFile(name, data, perm)` on the file table: the returned
error and the file table afterwards. -/
def WriteFile {Cfg : Type} (E : Env Cfg) (files : Files) (name : String) (data : Bytes) :
    Option ExtError × Files :=
  match E.writeFault name data with
  | none => (none, files.set name (some data))
  | some (e, residue) => (some e, files.set name residue)

/-- The function `bytes.Compare`: lexicographic order of two byte slices,
as `-1`, `0` or `1`. -/
def bytesCompare : Bytes → Bytes → Int
  | [], [] => 0
  | [], _ :: _ => -1
  | _ :: _, [] => 1
  | a :: as, b :: bs =>
    if a < b then -1 else if b < a then 1 else bytesCompare as bs

/-- The verbs of a format string, in order; `%%` takes no operand. -/
def fmtVerbs : List Char → List Char
  | [] => []
  | [_] => []
  | c :: d :: rest =>
    if c = '%' then (if d = '%' then fmtVerbs rest else d :: fmtVerbs rest)
    else fmtVerbs (d :: rest)

/-- The errors a `fmt.Errorf(format, args...)` value unwraps to: the error
operands of its `%w` verbs. -/
def wrapped (format : String) (args : List FmtArg) : List ExtError :=
  ((fmtVerbs format.toList).zip args).filterMap fun p =>
    match p with
    | ('w', FmtArg.err e) => some e
    | _ => none

/-- The text of one operand under one verb, for the verbs `%q`, `%v`, `%w` of
`edit.go`. -/
def fmtOperand (quote : String → String) (verb : Char) (a : FmtArg) : String :=
  match a with
  | .str s => if verb = 'q' then quote s else s
  | .err e => if verb = 'q' then quote e.msg else e.msg

/-- The formatting of `fmt.Sprintf(format, args...)`, on lists of characters:
text is copied, `%%` is a percent sign, and every other verb formats the next
operand.  No format string of `edit.go` ends in a lone percent sign or has
more verbs than operands. -/
def sprintfAux (quote : String → String) : List Char → List FmtArg → List Char
  | [], _ => []
  | [c], _ => [c]
  | c :: d :: rest, args =>
    if c = '%' then
      if d = '%' then '%' :: sprintfAux quote rest args
      else
        match args with
        | [] => '%' :: '!' :: d :: "(MISSING)".toList ++ sprintfAux quote rest []
        | a :: more => (fmtOperand quote d a).toList ++ sprintfAux quote rest more
    else c :: sprintfAux quote (d :: rest) args

/-- The function `fmt.Sprintf`. -/
def Sprintf (quote : String → String) (format : String) (args : List FmtArg) : String :=
  String.mk (sprintfAux quote format.toList args)

/-- The method `Error()` of a returned error. -/
def GoError.Error (quote : String → String) : GoError → String
  | .ext e => e.msg
  | .errorsNew text => text
  | .Errorf format args => Sprintf quote format args

/-- The call `errors.Is(err, os.ErrNotExist)` on a returned error: a
collaborator's error answers for itself, a fresh `errors.New` value is not
`os.ErrNotExist`, and a `fmt.Errorf` value matches when an error it wraps
does. -/
def GoError.isNotExist : GoError → Bool
  | .ext e => e.notExist
  | .errorsNew _ => false
  | .Errorf format args => (wrapped format args).any fun e => e.notExist

/-- The errors directly wrapped by a returned error (`Unwrap`). -/
def GoError.unwrap : GoError → List ExtError
  | .ext _ => []
  | .errorsNew _ => []
  | .Errorf format args => wrapped format args

/-! ## `edit.go` -/

/-- The name of the recovery file, `rejectedYAML` in `editAction`. -/
def rejectedYAML : String := "lima.REJECTED.yaml"

/-- The function `askWhetherToStart`: the answer and the error of
`survey.AskOne` on the confirmation prompt. -/
def askWhetherToStart {Cfg : Type} (E : Env Cfg) : Except ExtError Bool :=
  let prompt : Confirm := ⟨"Do you want to start the instance now? ", true⟩
  match E.AskOne prompt with
  | .error err => .error err
  | .ok ans => .ok ans

/-- The editor header `hdr` built by `editAction` for an instance name. -/
def editorHeader {Cfg : Type} (E : Env Cfg) (instName : String) : String :=
  Sprintf E.Quote "# Please edit the following configuration for Lima instance %q\n"
      [.str instName]
    ++ "# and an empty file will abort the edit.\n"
    ++ "\n"
    ++ E.GenerateEditorWarningHeader

/-- The instance name `instName` chosen by `editAction`: the first positional
argument, or `DefaultInstanceName` when there is none. -/
def instNameOf {Cfg : Type} (E : Env Cfg) (args : List String) : String :=
  match args with
  | [] => E.DefaultInstanceName
  | a :: _ => a

/-- The function `editAction`, on the positional arguments `args` and the file
table `files`. -/
def editAction {Cfg : Type} (E : Env Cfg) (args : List String) (files : Files) :
    Outcome Cfg :=
  let instName := instNameOf E args
  let t : List (Event Cfg) := [.Inspect instName]
  match E.Inspect instName with
  | .error err =>
    if err.notExist then
      ⟨some (.Errorf "Instance %q not found" [.str instName]), files, t⟩
    else ⟨some (.ext err), files, t⟩
  | .ok inst =>
  if inst.Status = E.StatusRunning then
    ⟨some (.errorsNew "Cannot edit a running instance"), files, t⟩
  else
  let filePath := E.Join inst.Dir E.LimaYAML
  let t := t ++ [.ReadFile filePath]
  match ReadFile E files filePath with
  | .error err => ⟨some (.ext err), files, t⟩
  | .ok yContent =>
  let t := t ++ [.GetBool "tty"]
  match E.GetBool "tty" with
  | .error err => ⟨some (.ext err), files, t⟩
  | .ok tty =>
  let t := t ++ [.GetString "set"]
  match E.GetString "set" with
  | .error err => ⟨some (.ext err), files, t⟩
  | .ok yq =>
  let acquired : Except ExtError Bytes × List (Event Cfg) :=
    if yq ≠ "" then
      (E.EvaluateExpression yq yContent,
        t ++ [.Warn "`--set` is experimental", .EvaluateExpression yq yContent])
    else if tty then
      let hdr := editorHeader E instName
      (E.OpenEditor instName yContent hdr, t ++ [.OpenEditor instName yContent hdr])
    else (.ok [], t)
  match acquired with
  | (.error err, t) => ⟨some (.ext err), files, t⟩
  | (.ok yBytes, t) =>
  if yBytes.length = 0 then
    ⟨none, files, t ++ [.Info "Aborting, as requested by saving the file with empty content"]⟩
  else
  if bytesCompare yBytes yContent = 0 then
    ⟨none, files, t ++ [.Info "Aborting, no changes made to the instance"]⟩
  else
  let t := t ++ [.Load yBytes filePath]
  match E.Load yBytes filePath with
  | .error err => ⟨some (.ext err), files, t⟩
  | .ok y =>
  let t := t ++ [.Validate y true]
  match E.Validate y true with
  | some err =>
    let t := t ++ [.WriteFile rejectedYAML yBytes 0o644]
    match WriteFile E files rejectedYAML yBytes with
    | (some writeErr, files) =>
      ⟨some (.Errorf
          "the YAML is invalid, attempted to save the buffer as %q but failed: %v: %w"
          [.str rejectedYAML, .err writeErr, .err err]), files, t⟩
    | (none, files) =>
      ⟨some (.Errorf "the YAML is invalid, saved the buffer as %q: %w"
          [.str rejectedYAML, .err err]), files, t⟩
  | none =>
  let t := t ++ [.WriteFile filePath yBytes 0o644]
  match WriteFile E files filePath yBytes with
  | (some err, files) => ⟨some (.ext err), files, t⟩
  | (none, files) =>
  let t := t ++ [.Info (Sprintf E.Quote "Instance %q configuration edited" [.str instName])]
  if !tty then ⟨none, files, t⟩
  else
  let t := t ++ [.AskOne ⟨"Do you want to start the instance now? ", true⟩]
  match askWhetherToStart E with
  | .error err => ⟨some (.ext err), files, t⟩
  | .ok startNow =>
  if !startNow then ⟨none, files, t⟩
  else
  let t := t ++ [.Reconcile inst.Name]
  match E.Reconcile inst.Name with
  | some err => ⟨some (.ext err), files, t⟩
  | none =>
  let t := t ++ [.Start inst]
  match E.Start inst with
  | some err => ⟨some (.ext err), files, t⟩
  | none => ⟨none, files, t⟩

/-! ## The two halves of `editAction`, for the proofs -/

/-- The statements of `editAction` that follow the commit (the restart
decision), as a function of the file table and the trace so far. -/
def restartSteps {Cfg : Type} (E : Env Cfg) (inst : Instance) (tty : Bool)
    (files : Files) (t : List (Event Cfg)) : Outcome Cfg :=
  if !tty then ⟨none, files, t⟩
  else
  let t := t ++ [.AskOne ⟨"Do you want to start the instance now? ", true⟩]
  match askWhetherToStart E with
  | .error err => ⟨some (.ext err), files, t⟩
  | .ok startNow =>
  if !startNow then ⟨none, files, t⟩
  else
  let t := t ++ [.Reconcile inst.Name]
  match E.Reconcile inst.Name with
  | some err => ⟨some (.ext err), files, t⟩
  | none =>
  let t := t ++ [.Start inst]
  match E.Start inst with
  | some err => ⟨some (.ext err), files, t⟩
  | none => ⟨none, files, t⟩

/-- The statements of `editAction` that follow the acquisition of the candidate
`yBytes` (abort checks, validation, recovery, commit, restart decision), as a
function of the file table and the trace so far. -/
def validateSteps {Cfg : Type} (E : Env Cfg) (instName : String) (inst : Instance)
    (tty : Bool) (yContent yBytes : Bytes) (files : Files) (t : List (Event Cfg)) :
    Outcome Cfg :=
  let filePath := E.Join inst.Dir E.LimaYAML
  if yBytes.length = 0 then
    ⟨none, files, t ++ [.Info "Aborting, as requested by saving the file with empty content"]⟩
  else
  if bytesCompare yBytes yContent = 0 then
    ⟨none, files, t ++ [.Info "Aborting, no changes made to the instance"]⟩
  else
  let t := t ++ [.Load yBytes filePath]
  match E.Load yBytes filePath with
  | .error err => ⟨some (.ext err), files, t⟩
  | .ok y =>
  let t := t ++ [.Validate y true]
  match E.Validate y true with
  | some err =>
    let t := t ++ [.WriteFile rejectedYAML yBytes 0o644]
    match WriteFile E files rejectedYAML yBytes with
    | (some writeErr, files) =>
      ⟨some (.Errorf
          "the YAML is invalid, attempted to save the buffer as %q but failed: %v: %w"
          [.str rejectedYAML, .err writeErr, .err err]), files, t⟩
    | (none, files) =>
      ⟨some (.Errorf "the YAML is invalid, saved the buffer as %q: %w"
          [.str rejectedYAML, .err err]), files, t⟩
  | none =>
  let t := t ++ [.WriteFile filePath yBytes 0o644]
  match WriteFile E files filePath yBytes with
  | (some err, files) => ⟨some (.ext err), files, t⟩
  | (none, files) =>
  restartSteps E inst tty files
    (t ++ [.Info (Sprintf E.Quote "Instance %q configuration edited" [.str instName])])

/-! ## Vocabulary of the statements -/

/-- The event is a call of `os.WriteFile`. -/
def Event.isWriteFile {Cfg : Type} : Event Cfg → Bool
  | .WriteFile _ _ _ => true
  | _ => false

/-- The event is a call of `os.WriteFile` on the given path. -/
def Event.isWriteTo {Cfg : Type} (name : String) : Event Cfg → Bool
  | .WriteFile n _ _ => n = name
  | _ => false

/-- The event is a call of the validator: `limayaml.Load` or
`limayaml.Validate`. -/
def Event.isValidator {Cfg : Type} : Event Cfg → Bool
  | .Load _ _ => true
  | .Validate _ _ => true
  | _ => false

/-- The event is the restart prompt or a restart phase: `survey.AskOne`,
`networks.Reconcile` or `start.Start`. -/
def Event.isRestart {Cfg : Type} : Event Cfg → Bool
  | .AskOne _ => true
  | .Reconcile _ => true
  | .Start _ => true
  | _ => false

/-- The event is a call that produces a candidate:
`yqutil.EvaluateExpression` or `editutil.OpenEditor`. -/
def Event.isAcquire {Cfg : Type} : Event Cfg → Bool
  | .EvaluateExpression _ _ => true
  | .OpenEditor _ _ _ => true
  | _ => false

/-- The event is a call of `start.Start`. -/
def Event.isStart {Cfg : Type} : Event Cfg → Bool
  | .Start _ => true
  | _ => false

/-- The event is one of the calls made before the candidate is checked:
inspection, the read of the document, the flags, the warning, the evaluator or
the editor. -/
def Event.isPrelude {Cfg : Type} : Event Cfg → Bool
  | .Inspect _ => true
  | .ReadFile _ => true
  | .GetBool _ => true
  | .GetString _ => true
  | .Warn _ => true
  | .EvaluateExpression _ _ => true
  | .OpenEditor _ _ _ => true
  | _ => false

/-- The session obtains the candidate `yBytes`: from the evaluator when the
`set` expression `yq` is not empty, and otherwise, when `tty` is set, from the
editor. -/
def Acquires {Cfg : Type} (E : Env Cfg) (instName : String) (yContent : Bytes)
    (tty : Bool) (yq : String) (yBytes : Bytes) : Prop :=
  (yq ≠ "" ∧ E.EvaluateExpression yq yContent = .ok yBytes) ∨
  (yq = "" ∧ tty = true ∧
    E.OpenEditor instName yContent (editorHeader E instName) = .ok yBytes)

/-! ## Sample sessions -/

/-- A stopped instance named `vm`, kept in `/lima/vm`. -/
def sampleInst : Instance := ⟨"vm", "Stopped", "/lima/vm"⟩

/-- A running instance named `live`. -/
def liveInst : Instance := ⟨"live", "Running", "/lima/live"⟩

/-- A host that holds the two-byte document of `vm` and nothing else. -/
def sampleFiles : Files :=
  fun p => if p = "/lima/vm/lima.yaml" then some [1, 2] else none

/-- The error of `store.Inspect` on an unknown instance. -/
def sampleNotFound : ExtError := ⟨"stat /lima/ghost: no such file or directory", true⟩

/-- The error of the sample parser. -/
def sampleLoadErr : ExtError := ⟨"yaml: did not find expected key", false⟩

/-- The error of the sample validator. -/
def sampleValidateErr : ExtError := ⟨"field `images` must be set", false⟩

/-- A sample environment over configurations that are natural numbers: the
`tty` flag, the `set` expression, the bytes that the evaluator and the editor
return, and the result of network reconciliation are arguments.  A candidate
whose first byte is `0` does not parse, a parsed candidate is its length, and a
configuration above `3` is invalid. -/
def sampleEnv (tty : Bool) (yq : String) (candidate : Bytes)
    (reconcile : Option ExtError) : Env Nat where
  DefaultInstanceName := "default"
  StatusRunning := "Running"
  LimaYAML := "lima.yaml"
  Join := fun dir name => dir ++ "/" ++ name
  Quote := fun s => "\"" ++ s ++ "\""
  Inspect := fun n =>
    if n = "vm" then .ok sampleInst
    else if n = "live" then .ok liveInst
    else .error sampleNotFound
  readFault := fun _ => none
  writeFault := fun _ _ => none
  GetBool := fun _ => .ok tty
  GetString := fun _ => .ok yq
  EvaluateExpression := fun _ _ => .ok candidate
  GenerateEditorWarningHeader := "# WARNING: do not edit while the instance runs\n"
  OpenEditor := fun _ _ _ => .ok candidate
  Load := fun b _ => if b.head? = some 0 then .error sampleLoadErr else .ok b.length
  Validate := fun y _ => if y ≤ 3 then none else some sampleValidateErr
  AskOne := fun _ => .ok true
  Reconcile := fun _ => reconcile
  Start := fun _ => none

/-- The error of `os.ReadFile` on a document that the user may not read. -/
def sampleReadErr : ExtError := ⟨"open /lima/vm/lima.yaml: permission denied", false⟩

/-- The sample environment without terminal and without `set` expression, on a
host where every `os.ReadFile` is refused. -/
def unreadableEnv : Env Nat :=
  { sampleEnv false "" [7, 8, 9] none with readFault := fun _ => some sampleReadErr }

/-! ## Lemmas -/

/-- A prelude event is not a write, a validator call or a restart event. -/
theorem Event.prelude_quiet {Cfg : Type} (ev : Event Cfg) (h : ev.isPrelude = true) :
    ev.isWriteFile = false ∧ ev.isValidator = false ∧ ev.isRestart = false ∧
    ev.isStart = false ∧ ∀ name, Event.isWriteTo name ev = false := by
  cases ev <;> simp_all [Event.isPrelude, Event.isWriteFile, Event.isValidator,
    Event.isRestart, Event.isStart, Event.isWriteTo]

/-- A restart event is not a write. -/
theorem Event.restart_quiet {Cfg : Type} (ev : Event Cfg) (h : ev.isRestart = true) :
    ev.isWriteFile = false ∧ ∀ name, Event.isWriteTo name ev = false := by
  cases ev <;> simp_all [Event.isRestart, Event.isWriteFile, Event.isWriteTo]

/-- A classifier that fails on every element of a list fails on the list. -/
theorem any_false_of_forall {α : Type} (p : α → Bool) (l : List α)
    (h : ∀ a ∈ l, p a = false) : l.any p = false := by
  induction l with
  | nil => rfl
  | cons a l ih =>
    simp only [List.any_cons, Bool.or_eq_false_iff]
    exact ⟨h a (List.mem_cons_self _ _), ih fun b hb => h b (List.mem_cons_of_mem _ hb)⟩

/-- The text of the error returned after a rejected candidate was saved. -/
theorem Sprintf_rejected (quote : String → String) (verr : ExtError) :
    Sprintf quote "the YAML is invalid, saved the buffer as %q: %w"
      [.str rejectedYAML, .err verr] =
    "the YAML is invalid, saved the buffer as " ++ quote rejectedYAML ++ ": " ++ verr.msg := by
  apply String.ext
  simp [Sprintf, sprintfAux, fmtOperand]

/-- The text of the error returned for an unknown instance. -/
theorem Sprintf_not_found (quote : String → String) (instName : String) :
    Sprintf quote "Instance %q not found" [.str instName] =
    "Instance " ++ quote instName ++ " not found" := by
  apply String.ext
  simp [Sprintf, sprintfAux, fmtOperand]

/-- The comparison of `bytes.Compare` is `0` exactly on equal slices. -/
theorem bytesCompare_eq_zero (a b : Bytes) : bytesCompare a b = 0 ↔ a = b := by
  induction a generalizing b with
  | nil => cases b <;> simp [bytesCompare]
  | cons x xs ih =>
    cases b with
    | nil => simp [bytesCompare]
    | cons y ys =>
      simp only [bytesCompare]
      by_cases h1 : x < y
      · have : x ≠ y := fun h => by subst h; exact absurd h1 (lt_irrefl _)
        simp [h1, this]
      · by_cases h2 : y < x
        · have : x ≠ y := fun h => by subst h; exact absurd h2 (lt_irrefl _)
          simp [h1, h2, this]
        · have : x = y := le_antisymm (not_lt.mp h2) (not_lt.mp h1)
          simp [h1, h2, this, ih]

/-- A successful `os.ReadFile` returns what the file table holds at the path. -/
theorem ReadFile_ok {Cfg : Type} {E : Env Cfg} {files : Files} {name : String}
    {b : Bytes} (h : ReadFile E files name = .ok b) : files name = some b := by
  unfold ReadFile at h
  cases hf : E.readFault name with
  | some e => simp [hf] at h
  | none =>
    cases hn : files name with
    | none => simp [hf, hn] at h
    | some c =>
      simp [hf, hn] at h
      simp [h]

/-- In scripted mode, past the gate and with the evaluator succeeding,
`editAction` continues with `validateSteps` on the evaluated bytes. -/
theorem editAction_scripted {Cfg : Type} {E : Env Cfg} {args : List String}
    {files : Files} {inst : Instance} {yContent : Bytes} {tty : Bool} {yq : String}
    {yBytes : Bytes}
    (hI : E.Inspect (instNameOf E args) = .ok inst)
    (hS : inst.Status ≠ E.StatusRunning)
    (hR : ReadFile E files (E.Join inst.Dir E.LimaYAML) = .ok yContent)
    (hT : E.GetBool "tty" = .ok tty)
    (hQ : E.GetString "set" = .ok yq)
    (hyq : yq ≠ "")
    (hE : E.EvaluateExpression yq yContent = .ok yBytes) :
    editAction E args files =
      validateSteps E (instNameOf E args) inst tty yContent yBytes files
        [.Inspect (instNameOf E args), .ReadFile (E.Join inst.Dir E.LimaYAML),
         .GetBool "tty", .GetString "set", .Warn "`--set` is experimental",
         .EvaluateExpression yq yContent] := by
  simp only [editAction, validateSteps, restartSteps, hI, hR, hT, hQ, hE, if_neg hS,
    if_pos hyq]
  rfl

/-- In interactive mode, past the gate and with the editor succeeding,
`editAction` continues with `validateSteps` on the edited bytes. -/
theorem editAction_editor {Cfg : Type} {E : Env Cfg} {args : List String}
    {files : Files} {inst : Instance} {yContent : Bytes} {yBytes : Bytes}
    (hI : E.Inspect (instNameOf E args) = .ok inst)
    (hS : inst.Status ≠ E.StatusRunning)
    (hR : ReadFile E files (E.Join inst.Dir E.LimaYAML) = .ok yContent)
    (hT : E.GetBool "tty" = .ok true)
    (hQ : E.GetString "set" = .ok "")
    (hO : E.OpenEditor (instNameOf E args) yContent (editorHeader E (instNameOf E args))
      = .ok yBytes) :
    editAction E args files =
      validateSteps E (instNameOf E args) inst true yContent yBytes files
        [.Inspect (instNameOf E args), .ReadFile (E.Join inst.Dir E.LimaYAML),
         .GetBool "tty", .GetString "set",
         .OpenEditor (instNameOf E args) yContent (editorHeader E (instNameOf E args))] := by
  have h : ¬ ("" : String) ≠ "" := fun h => h rfl
  simp only [editAction, validateSteps, restartSteps, hI, hR, hT, hQ, hO, if_neg hS,
    if_neg h, if_true]
  rfl

/-- Past the gate, a session that obtains a candidate continues with
`validateSteps`, after a trace of prelude calls only. -/
theorem editAction_acquired {Cfg : Type} {E : Env Cfg} {args : List String}
    {files : Files} {inst : Instance} {yContent : Bytes} {tty : Bool} {yq : String}
    {yBytes : Bytes}
    (hI : E.Inspect (instNameOf E args) = .ok inst)
    (hS : inst.Status ≠ E.StatusRunning)
    (hR : ReadFile E files (E.Join inst.Dir E.LimaYAML) = .ok yContent)
    (hT : E.GetBool "tty" = .ok tty)
    (hQ : E.GetString "set" = .ok yq)
    (hA : Acquires E (instNameOf E args) yContent tty yq yBytes) :
    ∃ t : List (Event Cfg), (∀ ev ∈ t, ev.isPrelude = true) ∧
      editAction E args files =
        validateSteps E (instNameOf E args) inst tty yContent yBytes files t := by
  rcases hA with ⟨hyq, hE⟩ | ⟨hyq, htty, hO⟩
  · refine ⟨_, ?_, editAction_scripted hI hS hR hT hQ hyq hE⟩
    simp [Event.isPrelude]
  · subst hyq htty
    refine ⟨_, ?_, editAction_editor hI hS hR hT hQ hO⟩
    simp [Event.isPrelude]

/-- The restart decision leaves the file table alone and only adds restart
events to the trace. -/
theorem restartSteps_frame {Cfg : Type} (E : Env Cfg) (inst : Instance) (tty : Bool)
    (files : Files) (t : List (Event Cfg)) :
    (restartSteps E inst tty files t).files = files ∧
    ∃ s, (restartSteps E inst tty files t).trace = t ++ s ∧
      ∀ ev ∈ s, ev.isRestart = true := by
  cases tty
  · exact ⟨by simp [restartSteps], [], by simp [restartSteps], by simp⟩
  · cases hAsk : E.AskOne ⟨"Do you want to start the instance now? ", true⟩ with
    | error e =>
      refine ⟨?_, [.AskOne ⟨"Do you want to start the instance now? ", true⟩], ?_, ?_⟩ <;>
        simp [restartSteps, askWhetherToStart, hAsk, Event.isRestart]
    | ok ans =>
      cases ans
      · refine ⟨?_, [.AskOne ⟨"Do you want to start the instance now? ", true⟩], ?_, ?_⟩ <;>
          simp [restartSteps, askWhetherToStart, hAsk, Event.isRestart]
      · cases hRec : E.Reconcile inst.Name with
        | some e =>
          refine ⟨?_, [.AskOne ⟨"Do you want to start the instance now? ", true⟩,
            .Reconcile inst.Name], ?_, ?_⟩ <;>
            simp [restartSteps, askWhetherToStart, hAsk, hRec, Event.isRestart]
        | none =>
          cases hSt : E.Start inst <;>
          refine ⟨?_, [.AskOne ⟨"Do you want to start the instance now? ", true⟩,
            .Reconcile inst.Name, .Start inst], ?_, ?_⟩ <;>
            simp [restartSteps, askWhetherToStart, hAsk, hRec, hSt, Event.isRestart]

/-- A non-empty, changed candidate that parses and validates, with the write of
the document succeeding, is committed, and the session goes on to the restart
decision. -/
theorem validateSteps_commit {Cfg : Type} {E : Env Cfg} {instName : String}
    {inst : Instance} {tty : Bool} {yContent yBytes : Bytes} {files : Files}
    {t : List (Event Cfg)} {y : Cfg}
    (hne : yBytes ≠ []) (hch : yBytes ≠ yContent)
    (hL : E.Load yBytes (E.Join inst.Dir E.LimaYAML) = .ok y)
    (hV : E.Validate y true = none)
    (hW : E.writeFault (E.Join inst.Dir E.LimaYAML) yBytes = none) :
    validateSteps E instName inst tty yContent yBytes files t =
      restartSteps E inst tty (files.set (E.Join inst.Dir E.LimaYAML) (some yBytes))
        (t ++ [.Load yBytes (E.Join inst.Dir E.LimaYAML), .Validate y true,
          .WriteFile (E.Join inst.Dir E.LimaYAML) yBytes 0o644,
          .Info (Sprintf E.Quote "Instance %q configuration edited" [.str instName])]) := by
  have hc : ¬ bytesCompare yBytes yContent = 0 :=
    fun h => hch ((bytesCompare_eq_zero _ _).1 h)
  simp [validateSteps, hne, hc, hL, hV, WriteFile, hW]

/-- The writes of `validateSteps`: away from the recovery path, the only write
is the commit of a non-empty, changed, parsed and validated candidate to the
document path, and a path that is not written keeps its contents. -/
theorem validateSteps_writes {Cfg : Type} (E : Env Cfg) (instName : String)
    (inst : Instance) (tty : Bool) (yContent yBytes : Bytes) (files : Files)
    (t : List (Event Cfg)) (name : String)
    (ht : ∀ ev ∈ t, ev.isPrelude = true) (hname : name ≠ rejectedYAML) :
    (∀ data perm, Event.WriteFile name data perm ∈
        (validateSteps E instName inst tty yContent yBytes files t).trace →
      name = E.Join inst.Dir E.LimaYAML ∧ data = yBytes ∧ yBytes ≠ [] ∧
      yBytes ≠ yContent ∧
      ∃ y, E.Load yBytes (E.Join inst.Dir E.LimaYAML) = .ok y ∧ E.Validate y true = none) ∧
    ((validateSteps E instName inst tty yContent yBytes files t).trace.any
        (Event.isWriteTo name) = false →
      (validateSteps E instName inst tty yContent yBytes files t).files name = files name) := by
  have hname2 : ¬ rejectedYAML = name := fun h => hname h.symm
  have hmem : ∀ data perm, Event.WriteFile name data perm ∉ t := fun data perm h => by
    simpa [Event.isPrelude] using ht _ h
  by_cases hne : yBytes = []
  · simp [validateSteps, hne, hmem, Event.isWriteTo]
  by_cases hc : bytesCompare yBytes yContent = 0
  · simp [validateSteps, hne, hc, hmem, Event.isWriteTo]
  have hch : ¬ yBytes = yContent := fun h => hc ((bytesCompare_eq_zero _ _).2 h)
  cases hL : E.Load yBytes (E.Join inst.Dir E.LimaYAML) with
  | error e => simp [validateSteps, hne, hc, hL, hmem, Event.isWriteTo]
  | ok y =>
    cases hV : E.Validate y true with
    | some verr =>
      cases hW : E.writeFault rejectedYAML yBytes <;>
      simp [validateSteps, hne, hc, hL, hV, WriteFile, hW, hmem, Event.isWriteTo, hname,
        hname2, Files.set]
    | none =>
      cases hW : E.writeFault (E.Join inst.Dir E.LimaYAML) yBytes with
      | some p =>
        simp only [validateSteps, hne, hc, hL, hV, WriteFile, hW]
        simp [hne, hmem, Event.isWriteTo, hch]
        refine ⟨?_, fun _ h1 => ?_⟩
        · rintro data perm rfl rfl -
          simp [hV]
        · have h1' : ¬ name = E.Join inst.Dir E.LimaYAML := fun h => h1 h.symm
          simp [Files.set, h1']
      | none =>
        rw [validateSteps_commit hne hch hL hV hW]
        obtain ⟨hf, s, hs, hsr⟩ := restartSteps_frame E inst tty
          (files.set (E.Join inst.Dir E.LimaYAML) (some yBytes))
          (t ++ [.Load yBytes (E.Join inst.Dir E.LimaYAML), .Validate y true,
            .WriteFile (E.Join inst.Dir E.LimaYAML) yBytes 0o644,
            .Info (Sprintf E.Quote "Instance %q configuration edited" [.str instName])])
        have hsm : ∀ data perm, Event.WriteFile name data perm ∉ s := fun data perm h => by
          simpa [Event.isRestart] using hsr _ h
        rw [hs, hf]
        simp [hne, hmem, hsm, Event.isWriteTo, hch, hV]
        refine ⟨?_, fun _ h1 _ => ?_⟩
        · rintro data perm rfl rfl -
          simp [hV]
        · have h1' : ¬ name = E.Join inst.Dir E.LimaYAML := fun h => h1 h.symm
          simp [Files.set, h1']

/-- Every session either ends before a candidate is obtained, with the file
table untouched and no write, or passes the gate, obtains a candidate and
continues with `validateSteps`. -/
theorem editAction_cases {Cfg : Type} (E : Env Cfg) (args : List String) (files : Files) :
    ((editAction E args files).files = files ∧
      ∀ ev ∈ (editAction E args files).trace, ev.isWriteFile = false) ∨
    ∃ inst yContent tty yq yBytes, ∃ t : List (Event Cfg),
      E.Inspect (instNameOf E args) = .ok inst ∧
      inst.Status ≠ E.StatusRunning ∧
      ReadFile E files (E.Join inst.Dir E.LimaYAML) = .ok yContent ∧
      E.GetBool "tty" = .ok tty ∧
      E.GetString "set" = .ok yq ∧
      Acquires E (instNameOf E args) yContent tty yq yBytes ∧
      (∀ ev ∈ t, ev.isPrelude = true) ∧
      editAction E args files =
        validateSteps E (instNameOf E args) inst tty yContent yBytes files t := by
  cases hI : E.Inspect (instNameOf E args) with
  | error e =>
    by_cases hn : e.notExist <;> simp [editAction, hI, hn, Event.isWriteFile]
  | ok inst =>
  by_cases hS : inst.Status = E.StatusRunning
  · simp [editAction, hI, hS, Event.isWriteFile]
  cases hR : ReadFile E files (E.Join inst.Dir E.LimaYAML) with
  | error e => simp [editAction, hI, hS, hR, Event.isWriteFile]
  | ok yContent =>
  cases hT : E.GetBool "tty" with
  | error e => simp [editAction, hI, hS, hR, hT, Event.isWriteFile]
  | ok tty =>
  cases hQ : E.GetString "set" with
  | error e => simp [editAction, hI, hS, hR, hT, hQ, Event.isWriteFile]
  | ok yq =>
  by_cases hyq : yq = ""
  · subst hyq
    cases tty with
    | false => simp [editAction, hI, hS, hR, hT, hQ, Event.isWriteFile]
    | true =>
      cases hO : E.OpenEditor (instNameOf E args) yContent
          (editorHeader E (instNameOf E args)) with
      | error e => simp [editAction, hI, hS, hR, hT, hQ, hO, Event.isWriteFile]
      | ok yBytes =>
        have hA : Acquires E (instNameOf E args) yContent true "" yBytes :=
          Or.inr ⟨rfl, rfl, hO⟩
        obtain ⟨t, ht, heq⟩ := editAction_acquired hI hS hR hT hQ hA
        exact Or.inr ⟨inst, yContent, true, "", yBytes, t, rfl, hS, hR, rfl, rfl, hA, ht, heq⟩
  · cases hE : E.EvaluateExpression yq yContent with
    | error e => simp [editAction, hI, hS, hR, hT, hQ, hyq, hE, Event.isWriteFile]
    | ok yBytes =>
      have hA : Acquires E (instNameOf E args) yContent tty yq yBytes :=
        Or.inl ⟨hyq, hE⟩
      obtain ⟨t, ht, heq⟩ := editAction_acquired hI hS hR hT hQ hA
      exact Or.inr ⟨inst, yContent, tty, yq, yBytes, t, rfl, hS, hR, rfl, rfl, hA, ht, heq⟩

/-! ## The claims -/

/-- Claim C1.  A session that passes the gate, reads the document `yContent`,
obtains a non-empty candidate `yBytes` that differs from it, parses, is rejected
by `limayaml.Validate(y, true)` with `verr`, and writes the recovery file
successfully, ends with `lima.REJECTED.yaml` holding exactly the candidate and
the document still holding `yContent`; it returns the `fmt.Errorf` error whose
text names the quoted recovery path and which wraps `verr`.  The document path
is assumed to be another path than the recovery file. -/
theorem rejected_candidate_saved {Cfg : Type} (E : Env Cfg) (args : List String)
    (files : Files) (inst : Instance) (yContent : Bytes) (tty : Bool) (yq : String)
    (yBytes : Bytes) (y : Cfg) (verr : ExtError)
    (hI : E.Inspect (instNameOf E args) = .ok inst)
    (hS : inst.Status ≠ E.StatusRunning)
    (hR : ReadFile E files (E.Join inst.Dir E.LimaYAML) = .ok yContent)
    (hT : E.GetBool "tty" = .ok tty)
    (hQ : E.GetString "set" = .ok yq)
    (hA : Acquires E (instNameOf E args) yContent tty yq yBytes)
    (hne : yBytes ≠ [])
    (hch : yBytes ≠ yContent)
    (hL : E.Load yBytes (E.Join inst.Dir E.LimaYAML) = .ok y)
    (hV : E.Validate y true = some verr)
    (hW : E.writeFault rejectedYAML yBytes = none)
    (hP : E.Join inst.Dir E.LimaYAML ≠ rejectedYAML) :
    (editAction E args files).files rejectedYAML = some yBytes ∧
    (editAction E args files).files (E.Join inst.Dir E.LimaYAML) = some yContent ∧
    ∃ g, (editAction E args files).err = some g ∧
      g = .Errorf "the YAML is invalid, saved the buffer as %q: %w"
            [.str rejectedYAML, .err verr] ∧
      g.Error E.Quote =
        "the YAML is invalid, saved the buffer as " ++ E.Quote rejectedYAML ++ ": "
          ++ verr.msg ∧
      g.unwrap = [verr] := by
  have hc : ¬ bytesCompare yBytes yContent = 0 :=
    fun h => hch ((bytesCompare_eq_zero _ _).1 h)
  have hd := ReadFile_ok hR
  have hw : wrapped "the YAML is invalid, saved the buffer as %q: %w"
      [.str rejectedYAML, .err verr] = [verr] := rfl
  obtain ⟨t, -, heq⟩ := editAction_acquired hI hS hR hT hQ hA
  rw [heq]
  simp [validateSteps, hne, hc, hL, hV, WriteFile, hW, Files.set, hP, hd, GoError.Error,
    GoError.unwrap, Sprintf_rejected, hw]

/-- Claim C1 at a sample session: the editor returns four bytes, which parse to
the invalid configuration `4`. -/
theorem rejected_candidate_saved_witness :
    (editAction (sampleEnv true "" [1, 2, 3, 4] none) ["vm"] sampleFiles).files
        rejectedYAML = some [1, 2, 3, 4] ∧
    (editAction (sampleEnv true "" [1, 2, 3, 4] none) ["vm"] sampleFiles).files
        "/lima/vm/lima.yaml" = some [1, 2] ∧
    ∃ g, (editAction (sampleEnv true "" [1, 2, 3, 4] none) ["vm"] sampleFiles).err
        = some g ∧
      g = .Errorf "the YAML is invalid, saved the buffer as %q: %w"
            [.str rejectedYAML, .err sampleValidateErr] ∧
      g.Error (sampleEnv true "" [1, 2, 3, 4] none).Quote =
        "the YAML is invalid, saved the buffer as " ++
          (sampleEnv true "" [1, 2, 3, 4] none).Quote rejectedYAML ++ ": "
          ++ sampleValidateErr.msg ∧
      g.unwrap = [sampleValidateErr] :=
  rejected_candidate_saved (sampleEnv true "" [1, 2, 3, 4] none) ["vm"] sampleFiles
    sampleInst [1, 2] true "" [1, 2, 3, 4] 4 sampleValidateErr
    rfl (by decide) rfl rfl rfl (Or.inr ⟨rfl, rfl, rfl⟩) (by decide) (by decide)
    rfl rfl rfl (by decide)

/-- Claim C2, on the code.  In a session whose editor returns the non-empty,
changed candidate `[0, 9]`, which `limayaml.Load` refuses, `editAction` returns
the parse error as it is, calls `os.WriteFile` not at all, and leaves no file
at `lima.REJECTED.yaml`: the candidate is lost. -/
theorem load_failure_saves_nothing :
    (sampleEnv true "" [0, 9] none).Load [0, 9] "/lima/vm/lima.yaml"
      = .error sampleLoadErr ∧
    (editAction (sampleEnv true "" [0, 9] none) ["vm"] sampleFiles).err
      = some (.ext sampleLoadErr) ∧
    (editAction (sampleEnv true "" [0, 9] none) ["vm"] sampleFiles).trace.any
      Event.isWriteFile = false ∧
    (editAction (sampleEnv true "" [0, 9] none) ["vm"] sampleFiles).files rejectedYAML
      = none ∧
    (editAction (sampleEnv true "" [0, 9] none) ["vm"] sampleFiles).files
      "/lima/vm/lima.yaml" = some [1, 2] := by
  refine ⟨rfl, ?_, ?_, ?_, ?_⟩ <;> decide

/-- Claim C3.  A session that passes the gate and obtains a candidate `yBytes`
that parses and passes `limayaml.Validate(y, true)`, with the write of the
document succeeding, ends with the document holding exactly `yBytes`, with
`lima.REJECTED.yaml` holding what it held before, and without any call of
`os.WriteFile` on `lima.REJECTED.yaml`.  The candidate is not empty, as every
candidate that `editAction` hands to the parser is, and the document path is
assumed to be another path than the recovery file. -/
theorem valid_candidate_committed {Cfg : Type} (E : Env Cfg) (args : List String)
    (files : Files) (inst : Instance) (yContent : Bytes) (tty : Bool) (yq : String)
    (yBytes : Bytes) (y : Cfg)
    (hI : E.Inspect (instNameOf E args) = .ok inst)
    (hS : inst.Status ≠ E.StatusRunning)
    (hR : ReadFile E files (E.Join inst.Dir E.LimaYAML) = .ok yContent)
    (hT : E.GetBool "tty" = .ok tty)
    (hQ : E.GetString "set" = .ok yq)
    (hA : Acquires E (instNameOf E args) yContent tty yq yBytes)
    (hne : yBytes ≠ [])
    (hL : E.Load yBytes (E.Join inst.Dir E.LimaYAML) = .ok y)
    (hV : E.Validate y true = none)
    (hW : E.writeFault (E.Join inst.Dir E.LimaYAML) yBytes = none)
    (hP : E.Join inst.Dir E.LimaYAML ≠ rejectedYAML) :
    (editAction E args files).files (E.Join inst.Dir E.LimaYAML) = some yBytes ∧
    (editAction E args files).files rejectedYAML = files rejectedYAML ∧
    (editAction E args files).trace.any (Event.isWriteTo rejectedYAML) = false := by
  have hd := ReadFile_ok hR
  have hP2 : ¬ rejectedYAML = E.Join inst.Dir E.LimaYAML := fun h => hP h.symm
  obtain ⟨t, ht, heq⟩ := editAction_acquired hI hS hR hT hQ hA
  have hany : t.any (Event.isWriteTo rejectedYAML) = false :=
    any_false_of_forall _ _ fun ev h => (Event.prelude_quiet ev (ht ev h)).2.2.2.2 _
  rw [heq]
  by_cases hch : yBytes = yContent
  · subst hch
    have hc : bytesCompare yBytes yBytes = 0 := (bytesCompare_eq_zero _ _).2 rfl
    simp [validateSteps, hne, hc, hd, hany, List.any_append, Event.isWriteTo]
  · rw [validateSteps_commit hne hch hL hV hW]
    obtain ⟨hf, s, hs, hsr⟩ := restartSteps_frame E inst tty
      (files.set (E.Join inst.Dir E.LimaYAML) (some yBytes))
      (t ++ [.Load yBytes (E.Join inst.Dir E.LimaYAML), .Validate y true,
        .WriteFile (E.Join inst.Dir E.LimaYAML) yBytes 0o644,
        .Info (Sprintf E.Quote "Instance %q configuration edited"
          [.str (instNameOf E args)])])
    have hsany : s.any (Event.isWriteTo rejectedYAML) = false :=
      any_false_of_forall _ _ fun ev h => (Event.restart_quiet ev (hsr ev h)).2 _
    rw [hs, hf]
    simp [Files.set, hP, hP2, hany, hsany, List.any_append, Event.isWriteTo]

/-- Claim C3 at a sample session: the expression evaluates to three bytes,
which parse to the valid configuration `3`. -/
theorem valid_candidate_committed_witness :
    (editAction (sampleEnv false ".cpus = 2" [7, 8, 9] none) ["vm"] sampleFiles).files
        "/lima/vm/lima.yaml" = some [7, 8, 9] ∧
    (editAction (sampleEnv false ".cpus = 2" [7, 8, 9] none) ["vm"] sampleFiles).files
        rejectedYAML = sampleFiles rejectedYAML ∧
    (editAction (sampleEnv false ".cpus = 2" [7, 8, 9] none) ["vm"] sampleFiles).trace.any
        (Event.isWriteTo rejectedYAML) = false :=
  valid_candidate_committed (sampleEnv false ".cpus = 2" [7, 8, 9] none) ["vm"]
    sampleFiles sampleInst [1, 2] false ".cpus = 2" [7, 8, 9] 3
    rfl (by decide) rfl rfl rfl (Or.inl ⟨by decide, rfl⟩) (by decide) rfl rfl rfl
    (by decide)

/-- Claim C4.  In every execution, on every path `name` other than the
recovery file, and so on the document path: a call `os.WriteFile(name, data, _)`
is made only when the session passed the gate, `name` is the document path,
`data` is the candidate it obtained, the candidate is not empty, differs from
the document read, and both `limayaml.Load` and `limayaml.Validate(y, true)`
succeeded on it; and when no such call is made the contents of `name` are
unchanged. -/
theorem document_written_only_when_valid {Cfg : Type} (E : Env Cfg) (args : List String)
    (files : Files) (name : String) (hname : name ≠ rejectedYAML) :
    (∀ data perm, Event.WriteFile name data perm ∈ (editAction E args files).trace →
      ∃ inst yContent tty yq y,
        E.Inspect (instNameOf E args) = .ok inst ∧
        inst.Status ≠ E.StatusRunning ∧
        name = E.Join inst.Dir E.LimaYAML ∧
        ReadFile E files name = .ok yContent ∧
        E.GetBool "tty" = .ok tty ∧
        E.GetString "set" = .ok yq ∧
        Acquires E (instNameOf E args) yContent tty yq data ∧
        data ≠ [] ∧
        data ≠ yContent ∧
        E.Load data name = .ok y ∧
        E.Validate y true = none) ∧
    ((editAction E args files).trace.any (Event.isWriteTo name) = false →
      (editAction E args files).files name = files name) := by
  rcases editAction_cases E args files with ⟨hf, hw⟩ |
    ⟨inst, yContent, tty, yq, yBytes, t, hI, hS, hR, hT, hQ, hA, ht, heq⟩
  · refine ⟨fun data perm hmem => ?_, fun _ => by rw [hf]⟩
    simpa [Event.isWriteFile] using hw _ hmem
  · rw [heq]
    obtain ⟨h1, h2⟩ := validateSteps_writes E (instNameOf E args) inst tty yContent yBytes
      files t name ht hname
    refine ⟨fun data perm hmem => ?_, h2⟩
    obtain ⟨rfl, rfl, hne, hch, y, hL, hV⟩ := h1 data perm hmem
    exact ⟨inst, yContent, tty, yq, y, hI, hS, rfl, hR, hT, hQ, hA, hne, hch, hL, hV⟩

/-- Claim C4 at a sample session, for the document path of `vm`: the editor
returns three bytes that are committed. -/
theorem document_written_only_when_valid_witness :
    (∀ data perm, Event.WriteFile "/lima/vm/lima.yaml" data perm ∈
        (editAction (sampleEnv true "" [7, 8, 9] none) ["vm"] sampleFiles).trace →
      ∃ inst yContent tty yq y,
        (sampleEnv true "" [7, 8, 9] none).Inspect
          (instNameOf (sampleEnv true "" [7, 8, 9] none) ["vm"]) = .ok inst ∧
        inst.Status ≠ (sampleEnv true "" [7, 8, 9] none).StatusRunning ∧
        "/lima/vm/lima.yaml" = (sampleEnv true "" [7, 8, 9] none).Join inst.Dir
          (sampleEnv true "" [7, 8, 9] none).LimaYAML ∧
        ReadFile (sampleEnv true "" [7, 8, 9] none) sampleFiles "/lima/vm/lima.yaml"
          = .ok yContent ∧
        (sampleEnv true "" [7, 8, 9] none).GetBool "tty" = .ok tty ∧
        (sampleEnv true "" [7, 8, 9] none).GetString "set" = .ok yq ∧
        Acquires (sampleEnv true "" [7, 8, 9] none)
          (instNameOf (sampleEnv true "" [7, 8, 9] none) ["vm"]) yContent tty yq data ∧
        data ≠ [] ∧
        data ≠ yContent ∧
        (sampleEnv true "" [7, 8, 9] none).Load data "/lima/vm/lima.yaml" = .ok y ∧
        (sampleEnv true "" [7, 8, 9] none).Validate y true = none) ∧
    ((editAction (sampleEnv true "" [7, 8, 9] none) ["vm"] sampleFiles).trace.any
        (Event.isWriteTo "/lima/vm/lima.yaml") = false →
      (editAction (sampleEnv true "" [7, 8, 9] none) ["vm"] sampleFiles).files
        "/lima/vm/lima.yaml" = sampleFiles "/lima/vm/lima.yaml") :=
  document_written_only_when_valid (sampleEnv true "" [7, 8, 9] none) ["vm"] sampleFiles
    "/lima/vm/lima.yaml" (by decide)

/-- Claim C5.  When `store.Inspect` returns an instance whose status is
`store.StatusRunning`, `editAction` returns `errors.New("Cannot edit a running
instance")`; the call of `store.Inspect` is the only call of the session (no
read of the document, no flag, evaluator, editor, validator, write or restart),
and the file table is unchanged.  Nothing is assumed about the flags. -/
theorem running_instance_rejected {Cfg : Type} (E : Env Cfg) (args : List String)
    (files : Files) (inst : Instance)
    (hI : E.Inspect (instNameOf E args) = .ok inst)
    (hS : inst.Status = E.StatusRunning) :
    (editAction E args files).err = some (.errorsNew "Cannot edit a running instance") ∧
    (editAction E args files).trace = [.Inspect (instNameOf E args)] ∧
    (editAction E args files).files = files := by
  simp [editAction, hI, hS]

/-- Claim C5 at a sample session on the running instance `live`. -/
theorem running_instance_rejected_witness :
    (editAction (sampleEnv true ".cpus = 2" [7, 8, 9] none) ["live"] sampleFiles).err
      = some (.errorsNew "Cannot edit a running instance") ∧
    (editAction (sampleEnv true ".cpus = 2" [7, 8, 9] none) ["live"] sampleFiles).trace
      = [.Inspect "live"] ∧
    (editAction (sampleEnv true ".cpus = 2" [7, 8, 9] none) ["live"] sampleFiles).files
      = sampleFiles :=
  running_instance_rejected (sampleEnv true ".cpus = 2" [7, 8, 9] none) ["live"]
    sampleFiles liveInst rfl rfl

/-- Claim C6, as stated, fails.  On the unknown instance `ghost` the error of
`store.Inspect` matches `os.ErrNotExist`, and `editAction` returns
`fmt.Errorf("Instance %q not found", "ghost")`, which wraps nothing:
`errors.Is` of the returned error and `os.ErrNotExist` is false. -/
theorem not_found_error_drops_ErrNotExist :
    (sampleEnv true "" [] none).Inspect "ghost" = .error sampleNotFound ∧
    sampleNotFound.notExist = true ∧
    (editAction (sampleEnv true "" [] none) ["ghost"] sampleFiles).err
      = some (.Errorf "Instance %q not found" [.str "ghost"]) ∧
    (GoError.Errorf "Instance %q not found" [.str "ghost"]).isNotExist = false ∧
    ¬ ∀ g, (editAction (sampleEnv true "" [] none) ["ghost"] sampleFiles).err = some g →
      g.isNotExist = true := by
  refine ⟨rfl, rfl, by decide, by decide, fun h => ?_⟩
  have := h (.Errorf "Instance %q not found" [.str "ghost"]) (by decide)
  revert this
  decide

/-- Claim C6, amended.  When `store.Inspect` fails with `err`, `editAction`
makes no other call and leaves the file table unchanged.  If `err` matches
`os.ErrNotExist`, the returned error is `fmt.Errorf("Instance %q not found",
instName)`: its text names the quoted instance, it wraps nothing, and it does
not match `os.ErrNotExist`.  Otherwise the returned error is `err` itself. -/
theorem inspect_error_reported {Cfg : Type} (E : Env Cfg) (args : List String)
    (files : Files) (err : ExtError)
    (hI : E.Inspect (instNameOf E args) = .error err) :
    (err.notExist = true →
      ∃ g, (editAction E args files).err = some g ∧
        g = .Errorf "Instance %q not found" [.str (instNameOf E args)] ∧
        g.Error E.Quote = "Instance " ++ E.Quote (instNameOf E args) ++ " not found" ∧
        g.unwrap = [] ∧
        g.isNotExist = false) ∧
    (err.notExist = false → (editAction E args files).err = some (.ext err)) ∧
    (editAction E args files).trace = [.Inspect (instNameOf E args)] ∧
    (editAction E args files).files = files := by
  have hw : wrapped "Instance %q not found" [.str (instNameOf E args)] = [] := rfl
  cases hn : err.notExist <;>
    simp [editAction, hI, hn, GoError.Error, GoError.unwrap, GoError.isNotExist,
      Sprintf_not_found, hw]

/-- Claim C6, amended, at a sample session on the unknown instance `ghost`. -/
theorem inspect_error_reported_witness :
    (sampleNotFound.notExist = true →
      ∃ g, (editAction (sampleEnv true "" [] none) ["ghost"] sampleFiles).err = some g ∧
        g = .Errorf "Instance %q not found"
          [.str (instNameOf (sampleEnv true "" [] none) ["ghost"])] ∧
        g.Error (sampleEnv true "" [] none).Quote =
          "Instance " ++ (sampleEnv true "" [] none).Quote
            (instNameOf (sampleEnv true "" [] none) ["ghost"]) ++ " not found" ∧
        g.unwrap = [] ∧
        g.isNotExist = false) ∧
    (sampleNotFound.notExist = false →
      (editAction (sampleEnv true "" [] none) ["ghost"] sampleFiles).err
        = some (.ext sampleNotFound)) ∧
    (editAction (sampleEnv true "" [] none) ["ghost"] sampleFiles).trace
      = [.Inspect (instNameOf (sampleEnv true "" [] none) ["ghost"])] ∧
    (editAction (sampleEnv true "" [] none) ["ghost"] sampleFiles).files = sampleFiles :=
  inspect_error_reported (sampleEnv true "" [] none) ["ghost"] sampleFiles sampleNotFound
    rfl

/-- Claim C7.  A session that passes the gate and obtains, from the evaluator
or from the editor, a candidate equal to the document it read returns nil,
leaves the whole file table unchanged, and makes no call of `os.WriteFile`, of
the validator (`limayaml.Load`, `limayaml.Validate`) or of the restart prompt
and phases. -/
theorem unchanged_candidate_is_noop {Cfg : Type} (E : Env Cfg) (args : List String)
    (files : Files) (inst : Instance) (yContent : Bytes) (tty : Bool) (yq : String)
    (hI : E.Inspect (instNameOf E args) = .ok inst)
    (hS : inst.Status ≠ E.StatusRunning)
    (hR : ReadFile E files (E.Join inst.Dir E.LimaYAML) = .ok yContent)
    (hT : E.GetBool "tty" = .ok tty)
    (hQ : E.GetString "set" = .ok yq)
    (hA : Acquires E (instNameOf E args) yContent tty yq yContent) :
    (editAction E args files).err = none ∧
    (editAction E args files).files = files ∧
    (editAction E args files).trace.any Event.isWriteFile = false ∧
    (editAction E args files).trace.any Event.isValidator = false ∧
    (editAction E args files).trace.any Event.isRestart = false := by
  have hc : bytesCompare yContent yContent = 0 := (bytesCompare_eq_zero _ _).2 rfl
  obtain ⟨t, ht, heq⟩ := editAction_acquired hI hS hR hT hQ hA
  have h1 : t.any Event.isWriteFile = false :=
    any_false_of_forall _ _ fun ev h => (Event.prelude_quiet ev (ht ev h)).1
  have h2 : t.any Event.isValidator = false :=
    any_false_of_forall _ _ fun ev h => (Event.prelude_quiet ev (ht ev h)).2.1
  have h3 : t.any Event.isRestart = false :=
    any_false_of_forall _ _ fun ev h => (Event.prelude_quiet ev (ht ev h)).2.2.1
  rw [heq]
  by_cases hl : yContent = []
  · simp [validateSteps, hl, h1, h2, h3, List.any_append, Event.isWriteFile,
      Event.isValidator, Event.isRestart]
  · simp [validateSteps, hl, hc, h1, h2, h3, List.any_append, Event.isWriteFile,
      Event.isValidator, Event.isRestart]

/-- Claim C7 at a sample session: the editor returns the document as it was. -/
theorem unchanged_candidate_is_noop_witness :
    (editAction (sampleEnv true "" [1, 2] none) ["vm"] sampleFiles).err = none ∧
    (editAction (sampleEnv true "" [1, 2] none) ["vm"] sampleFiles).files = sampleFiles ∧
    (editAction (sampleEnv true "" [1, 2] none) ["vm"] sampleFiles).trace.any
      Event.isWriteFile = false ∧
    (editAction (sampleEnv true "" [1, 2] none) ["vm"] sampleFiles).trace.any
      Event.isValidator = false ∧
    (editAction (sampleEnv true "" [1, 2] none) ["vm"] sampleFiles).trace.any
      Event.isRestart = false :=
  unchanged_candidate_is_noop (sampleEnv true "" [1, 2] none) ["vm"] sampleFiles
    sampleInst [1, 2] true "" rfl (by decide) rfl rfl rfl (Or.inr ⟨rfl, rfl, rfl⟩)

/-- Claim C8, as stated, fails.  The session on `vm` passes the gate (the
instance exists and is stopped), `tty` is false and the `set` expression is
empty, but `os.ReadFile` on the document is refused: `editAction` returns the
read error, not nil. -/
theorem no_mode_fails_on_unreadable_document :
    unreadableEnv.Inspect (instNameOf unreadableEnv ["vm"]) = .ok sampleInst ∧
    sampleInst.Status ≠ unreadableEnv.StatusRunning ∧
    unreadableEnv.GetBool "tty" = .ok false ∧
    unreadableEnv.GetString "set" = .ok "" ∧
    (editAction unreadableEnv ["vm"] sampleFiles).err = some (.ext sampleReadErr) ∧
    (editAction unreadableEnv ["vm"] sampleFiles).err ≠ none := by
  refine ⟨rfl, by decide, rfl, rfl, by decide, by decide⟩

/-- Claim C8, amended.  In a session that passes the gate with an empty `set`
expression and `tty` false, neither the evaluator nor the editor is called and
the whole file table is unchanged.  When the read of the document succeeds, the
session returns nil, and its calls are the inspection, the read of the
document, the two flags and the abort message.  When the read fails, the
session returns the read error right after the read. -/
theorem no_mode_is_noop {Cfg : Type} (E : Env Cfg) (args : List String)
    (files : Files) (inst : Instance)
    (hI : E.Inspect (instNameOf E args) = .ok inst)
    (hS : inst.Status ≠ E.StatusRunning)
    (hT : E.GetBool "tty" = .ok false)
    (hQ : E.GetString "set" = .ok "") :
    (editAction E args files).trace.any Event.isAcquire = false ∧
    (editAction E args files).files = files ∧
    (∀ yContent, ReadFile E files (E.Join inst.Dir E.LimaYAML) = .ok yContent →
      (editAction E args files).err = none ∧
      (editAction E args files).trace =
        [.Inspect (instNameOf E args), .ReadFile (E.Join inst.Dir E.LimaYAML),
         .GetBool "tty", .GetString "set",
         .Info "Aborting, as requested by saving the file with empty content"]) ∧
    (∀ rerr, ReadFile E files (E.Join inst.Dir E.LimaYAML) = .error rerr →
      (editAction E args files).err = some (.ext rerr) ∧
      (editAction E args files).trace =
        [.Inspect (instNameOf E args), .ReadFile (E.Join inst.Dir E.LimaYAML)]) := by
  cases hR : ReadFile E files (E.Join inst.Dir E.LimaYAML) <;>
    simp [editAction, hI, hS, hR, hT, hQ, Event.isAcquire]

/-- Claim C8, amended, at a sample session whose read of the document
succeeds: no `set` expression and no terminal. -/
theorem no_mode_is_noop_witness :
    (editAction (sampleEnv false "" [7, 8, 9] none) ["vm"] sampleFiles).trace.any
      Event.isAcquire = false ∧
    (editAction (sampleEnv false "" [7, 8, 9] none) ["vm"] sampleFiles).files
      = sampleFiles ∧
    ReadFile (sampleEnv false "" [7, 8, 9] none) sampleFiles "/lima/vm/lima.yaml"
      = .ok [1, 2] ∧
    (editAction (sampleEnv false "" [7, 8, 9] none) ["vm"] sampleFiles).err = none ∧
    (editAction (sampleEnv false "" [7, 8, 9] none) ["vm"] sampleFiles).trace =
      [.Inspect "vm", .ReadFile "/lima/vm/lima.yaml", .GetBool "tty", .GetString "set",
       .Info "Aborting, as requested by saving the file with empty content"] :=
  have h := no_mode_is_noop (sampleEnv false "" [7, 8, 9] none) ["vm"] sampleFiles
    sampleInst rfl (by decide) rfl rfl
  ⟨h.1, h.2.1, rfl, (h.2.2.1 [1, 2] rfl).1, (h.2.2.1 [1, 2] rfl).2⟩

/-- Claim C9.  In a session with `tty` true that commits a non-empty, changed,
valid candidate `yBytes` and whose restart prompt is answered yes, a failure
`rerr` of `networks.Reconcile` is returned as it is, `networks.Reconcile` was
called, `start.Start` is not called, and the document still holds `yBytes`. -/
theorem reconcile_failure_keeps_commit {Cfg : Type} (E : Env Cfg) (args : List String)
    (files : Files) (inst : Instance) (yContent : Bytes) (yq : String)
    (yBytes : Bytes) (y : Cfg) (rerr : ExtError)
    (hI : E.Inspect (instNameOf E args) = .ok inst)
    (hS : inst.Status ≠ E.StatusRunning)
    (hR : ReadFile E files (E.Join inst.Dir E.LimaYAML) = .ok yContent)
    (hT : E.GetBool "tty" = .ok true)
    (hQ : E.GetString "set" = .ok yq)
    (hA : Acquires E (instNameOf E args) yContent true yq yBytes)
    (hne : yBytes ≠ [])
    (hch : yBytes ≠ yContent)
    (hL : E.Load yBytes (E.Join inst.Dir E.LimaYAML) = .ok y)
    (hV : E.Validate y true = none)
    (hW : E.writeFault (E.Join inst.Dir E.LimaYAML) yBytes = none)
    (hAsk : E.AskOne ⟨"Do you want to start the instance now? ", true⟩ = .ok true)
    (hRec : E.Reconcile inst.Name = some rerr) :
    (editAction E args files).err = some (.ext rerr) ∧
    (editAction E args files).trace.any Event.isStart = false ∧
    Event.Reconcile inst.Name ∈ (editAction E args files).trace ∧
    (editAction E args files).files (E.Join inst.Dir E.LimaYAML) = some yBytes := by
  obtain ⟨t, ht, heq⟩ := editAction_acquired hI hS hR hT hQ hA
  have h1 : t.any Event.isStart = false :=
    any_false_of_forall _ _ fun ev h => (Event.prelude_quiet ev (ht ev h)).2.2.2.1
  rw [heq, validateSteps_commit hne hch hL hV hW]
  simp [restartSteps, askWhetherToStart, hAsk, hRec, h1, List.any_append, Event.isStart,
    Files.set]

/-- Claim C9 at a sample session: the editor returns three valid bytes and
reconciliation fails. -/
theorem reconcile_failure_keeps_commit_witness :
    (editAction (sampleEnv true "" [7, 8, 9] (some ⟨"vde_vmnet is not installed", false⟩))
      ["vm"] sampleFiles).err = some (.ext ⟨"vde_vmnet is not installed", false⟩) ∧
    (editAction (sampleEnv true "" [7, 8, 9] (some ⟨"vde_vmnet is not installed", false⟩))
      ["vm"] sampleFiles).trace.any Event.isStart = false ∧
    Event.Reconcile "vm" ∈
      (editAction (sampleEnv true "" [7, 8, 9] (some ⟨"vde_vmnet is not installed", false⟩))
        ["vm"] sampleFiles).trace ∧
    (editAction (sampleEnv true "" [7, 8, 9] (some ⟨"vde_vmnet is not installed", false⟩))
      ["vm"] sampleFiles).files "/lima/vm/lima.yaml" = some [7, 8, 9] :=
  reconcile_failure_keeps_commit
    (sampleEnv true "" [7, 8, 9] (some ⟨"vde_vmnet is not installed", false⟩)) ["vm"]
    sampleFiles sampleInst [1, 2] "" [7, 8, 9] 3 ⟨"vde_vmnet is not installed", false⟩
    rfl (by decide) rfl rfl rfl (Or.inr ⟨rfl, rfl, rfl⟩) (by decide) (by decide)
    rfl rfl rfl rfl rfl

/-- Claim C10.  In scripted mode (a non-empty `set` expression), for either
value of `tty`, when the evaluator succeeds with zero bytes the session returns
nil and leaves the whole file table unchanged; after the evaluator its only
call is the abort message of the empty-candidate branch, so there is no write,
no validator call and no restart prompt. -/
theorem scripted_empty_aborts {Cfg : Type} (E : Env Cfg) (args : List String)
    (files : Files) (inst : Instance) (yContent : Bytes) (tty : Bool) (yq : String)
    (hI : E.Inspect (instNameOf E args) = .ok inst)
    (hS : inst.Status ≠ E.StatusRunning)
    (hR : ReadFile E files (E.Join inst.Dir E.LimaYAML) = .ok yContent)
    (hT : E.GetBool "tty" = .ok tty)
    (hQ : E.GetString "set" = .ok yq)
    (hyq : yq ≠ "")
    (hE : E.EvaluateExpression yq yContent = .ok []) :
    (editAction E args files).err = none ∧
    (editAction E args files).files = files ∧
    (editAction E args files).trace =
      [.Inspect (instNameOf E args), .ReadFile (E.Join inst.Dir E.LimaYAML),
       .GetBool "tty", .GetString "set", .Warn "`--set` is experimental",
       .EvaluateExpression yq yContent,
       .Info "Aborting, as requested by saving the file with empty content"] := by
  rw [editAction_scripted hI hS hR hT hQ hyq hE]
  simp [validateSteps]

/-- Claim C10 at a sample session: the expression deletes the whole document. -/
theorem scripted_empty_aborts_witness :
    (editAction (sampleEnv true "del(.)" [] none) ["vm"] sampleFiles).err = none ∧
    (editAction (sampleEnv true "del(.)" [] none) ["vm"] sampleFiles).files
      = sampleFiles ∧
    (editAction (sampleEnv true "del(.)" [] none) ["vm"] sampleFiles).trace =
      [.Inspect "vm", .ReadFile "/lima/vm/lima.yaml", .GetBool "tty", .GetString "set",
       .Warn "`--set` is experimental", .EvaluateExpression "del(.)" [1, 2],
       .Info "Aborting, as requested by saving the file with empty content"] :=
  scripted_empty_aborts (sampleEnv true "del(.)" [] none) ["vm"] sampleFiles sampleInst
    [1, 2] true "del(.)" rfl (by decide) rfl rfl rfl (by decide) rfl

end Lima
